import Mathlib

/-!
Shallow embedding of `detection_src/input_pipeline/pipeline.py`.

The pipeline reads sharded record files, counts examples at construction
(asserting every shard is non-empty), optionally shuffles the shard order
with a buffer sized to the number of shards, flattens shards into one
record stream, decodes and preprocesses each record, and groups the
results into padded batches of a fixed size, dropping any trailing
partial group.

Modelling conventions:
- pixel values and box coordinates are rationals (`ℚ`);
- an image is a row-major grid `List (List (List ℚ))` (rows, columns,
  channels);
- randomness (dataset shuffling, the random crop) is an explicit stream
  of natural numbers `List Nat` passed to the run;
- fallible steps return `Except PipelineError _`; the two construction
  asserts are modelled by the spec's names `emptyShardError` and
  `emptySourceError`, and a record whose fixed-length fields have the
  wrong arity or whose coordinate sequences have mismatched lengths
  yields `malformedRecordError`.
-/

namespace DetectionInput

/-- A decoded image: rows of columns of channel values. -/
abbrev Image := List (List (List ℚ))

/-- One bounding box, stored as the row `[ymin, xmin, ymax, xmax]`. -/
abbrev Box := List ℚ

/-- Errors of the pipeline, named as in the specification's taxonomy. -/
inductive PipelineError where
  | emptyShardError
  | emptySourceError
  | malformedRecordError
  deriving DecidableEq, Repr

/-- A raw record as parsed from a shard file: the seven named fields of
the schema.  The encoded image payload is modelled as the already
decoded pixel grid. -/
structure RawRecord where
  filename : String
  img_shape : List Int
  image : Image
  ymin : List ℚ
  xmin : List ℚ
  ymax : List ℚ
  xmax : List ℚ
  deriving DecidableEq, Repr

/-- The result of `_parse_and_preprocess` for one record. -/
structure ParsedExample where
  image : Image
  img_shape : List Int
  boxes : List Box
  num_boxes : Nat
  filename : String
  deriving DecidableEq, Repr

/-- One emitted padded batch. -/
structure Batch where
  images : List Image
  img_shapes : List (List Int)
  boxes : List (List Box)
  num_boxes : List Nat
  filenames : List String
  deriving DecidableEq, Repr

/-- The state stored by `Pipeline.__init__`: constructor arguments plus
the example and shard counts; `files` keeps the shard contents the
dataset will stream. -/
structure Pipeline where
  is_training : Bool
  load_size : Nat
  fine_size : Nat
  batch_size : Nat
  num_examples : Nat
  num_shards : Nat
  shuffle : Bool
  files : List (List RawRecord)
  deriving DecidableEq, Repr

/-- The default of the constructor's `load_size` argument. -/
def loadSizeDefault : Nat := 286

/-- `tf.clip_by_value(x, 0.0, 1.0)` on one scalar. -/
def clip01 (x : ℚ) : ℚ := if x < 0 then 0 else if 1 < x then 1 else x

/-- Apply a scalar function to every pixel value of an image. -/
def mapImage (f : ℚ → ℚ) (img : Image) : Image :=
  img.map (fun row => row.map (fun px => px.map f))

/-- `tf.image.resize_images(image, [s, s])`, modelled as nearest-neighbour
sampling; whatever the input, the output is an `s × s × 3` grid (the
channel count 3 is fixed by `decode_jpeg(..., channels=3)`). -/
def resizeImages (img : Image) (s : Nat) : Image :=
  (List.range s).map (fun i =>
    (List.range s).map (fun j =>
      let row := img.getD (i * img.length / s) []
      let px := row.getD (j * row.length / s) []
      [px.getD 0 0, px.getD 1 0, px.getD 2 0]))

/-- `tf.stack([ymin, xmin, ymax, xmax], axis=1)`: zip the four coordinate
sequences column-wise into rows `[y0, x0, y1, x1]`. -/
def zipBoxes : List ℚ → List ℚ → List ℚ → List ℚ → List Box
  | y0 :: ys0, x0 :: xs0, y1 :: ys1, x1 :: xs1 =>
      [y0, x0, y1, x1] :: zipBoxes ys0 xs0 ys1 xs1
  | _, _, _, _ => []

/-- Whether the four coordinate sequences of a record all have the same
length (`tf.stack` requires this). -/
def boxLengthsMatch (r : RawRecord) : Bool :=
  r.ymin.length == r.xmin.length &&
    r.xmin.length == r.ymax.length && r.ymax.length == r.xmax.length

/-- The decoder's box assembly: zip the four coordinate sequences into an
`N × 4` matrix and clip every value into `[0, 1]`. -/
def decodeBoxes (r : RawRecord) : List Box :=
  (zipBoxes r.ymin r.xmin r.ymax r.xmax).map (fun b => b.map clip01)

/-- Modelled from the spec: `random_image_crop` lives in
`detection_src/input_pipeline/random_image_crop.py`, which is not part of
the sources here.  Per the spec it is a pure function of the image, the
boxes and the randomness that either keeps the example unchanged or crops
the image and re-expresses the (clipped) boxes relative to the crop; an
example with no boxes propagates unchanged.  The crop decision and the
crop window are driven by the random stream. -/
def randomImageCrop (rng : List Nat) (image : Image) (boxes : List Box) :
    Image × List Box :=
  if boxes.isEmpty then (image, boxes)
  else
    let r := rng.headD 0
    if r % 10 < 9 then
      let cut := r % (image.length / 2 + 1)
      ((image.drop cut).map (fun row => row.drop cut),
        boxes.map (fun b => b.map clip01))
    else (image, boxes)

/-- `Pipeline._parse_and_preprocess` on one record: check the fixed-length
fields, assemble and clip the boxes, optionally crop (training only),
resize to `fine_size × fine_size`, clip pixels to `[0, 1]` and remap them
to `[-1, 1]` via `pixel * 2 - 1`. -/
def parseAndPreprocess (p : Pipeline) (rng : List Nat) (r : RawRecord) :
    Except PipelineError ParsedExample :=
  if r.img_shape.length != 3 then .error .malformedRecordError
  else if !boxLengthsMatch r then .error .malformedRecordError
  else
    let boxes := decodeBoxes r
    let step :=
      if p.is_training then
        let cropped := randomImageCrop rng r.image boxes
        (resizeImages cropped.1 p.fine_size, cropped.2)
      else
        (resizeImages r.image p.fine_size, boxes)
    let image := mapImage (fun x => clip01 x * 2 - 1) step.1
    .ok { image := image, img_shape := r.img_shape, boxes := step.2,
          num_boxes := step.2.length, filename := r.filename }

/-- `dataset.map(self._parse_and_preprocess, ...)` over the record
stream; the first failing record aborts the whole run.  Each record
consumes the head of the random stream. -/
def decodeAll (p : Pipeline) : List Nat → List RawRecord →
    Except PipelineError (List ParsedExample)
  | _, [] => .ok []
  | rng, r :: rs => do
      let e ← parseAndPreprocess p rng r
      let es ← decodeAll p rng.tail rs
      pure (e :: es)

/-- One step of `tf.data`'s buffered shuffle: draw a random element out
of the buffer, emit it, refill the buffer from the remaining stream. -/
def shuffleAux [DecidableEq α] : Nat → List Nat → List α → List α → List α
  | 0, _, buf, rest => buf ++ rest
  | _ + 1, _, [], rest => rest
  | fuel + 1, rng, b :: bs, rest =>
      let buf := b :: bs
      let x := buf.getD (rng.headD 0 % buf.length) b
      x :: shuffleAux fuel rng.tail (buf.erase x ++ rest.take 1) (rest.drop 1)

/-- `dataset.shuffle(buffer_size=k)`: keep a buffer of `k` elements and
repeatedly emit a random one, refilling from the stream. -/
def bufferedShuffle [DecidableEq α] (k : Nat) (rng : List Nat) (l : List α) :
    List α :=
  shuffleAux (l.length + 1) rng (l.take k) (l.drop k)

/-- The order in which the shard files are visited: a buffered shuffle
with buffer size `num_shards` when `shuffle` is set, otherwise the given
order. -/
def shardOrder (p : Pipeline) (rng : List Nat) : List (List RawRecord) :=
  if p.shuffle then bufferedShuffle p.num_shards rng p.files else p.files

/-- `dataset.flat_map(tf.data.TFRecordDataset)`: the flattened record
stream (the prefetch stages buffer but do not change the stream). -/
def recordStream (p : Pipeline) (rng : List Nat) : List RawRecord :=
  (shardOrder p rng).flatten

/-- The per-batch padding width: the maximum `num_boxes` in the group. -/
def maxNumBoxes (g : List ParsedExample) : Nat :=
  (g.map (fun e => e.num_boxes)).foldr max 0

/-- The all-zero padding row of the boxes tensor. -/
def zeroBox : Box := [0, 0, 0, 0]

/-- Pad a box matrix with all-zero rows up to `n` rows. -/
def padBoxesTo (n : Nat) (rows : List Box) : List Box :=
  rows ++ List.replicate (n - rows.length) zeroBox

/-- Assemble one padded batch from a group of examples
(`padded_shapes = ([fine, fine, 3], [3], [None, 4], [], [])`): only the
box dimension is ragged, so boxes are padded to the group's maximum and
everything else is stacked directly. -/
def assembleBatch (g : List ParsedExample) : Batch :=
  { images := g.map (fun e => e.image),
    img_shapes := g.map (fun e => e.img_shape),
    boxes := g.map (fun e => padBoxesTo (maxNumBoxes g) e.boxes),
    num_boxes := g.map (fun e => e.num_boxes),
    filenames := g.map (fun e => e.filename) }

/-- Split a stream into consecutive groups of exactly `b` elements,
dropping the trailing partial group (`drop_remainder=True`). -/
def chunkExact (b : Nat) (l : List α) : List (List α) :=
  (List.range (l.length / b)).map (fun i => (l.drop (i * b)).take b)

/-- `dataset.padded_batch(batch_size, padded_shapes, drop_remainder=True)`. -/
def paddedBatchAll (b : Nat) (es : List ParsedExample) : List Batch :=
  (chunkExact b es).map assembleBatch

/-- One epoch of the pipeline: order the shards, flatten, decode and
preprocess every record, then batch with padding.  The `rng` stream
supplies all randomness (shard shuffle and random crop). -/
def runPipeline (p : Pipeline) (rng : List Nat) :
    Except PipelineError (List Batch) := do
  let es ← decodeAll p rng (recordStream p rng)
  pure (paddedBatchAll p.batch_size es)

/-- The per-shard record count with the constructor's assert: a shard
with zero records fails (the spec's `EmptyShardError`), otherwise the
counts are summed. -/
def countShards : List (List RawRecord) → Except PipelineError Nat
  | [] => .ok 0
  | f :: fs =>
      if 0 < f.length then do
        let n ← countShards fs
        .ok (f.length + n)
      else .error .emptyShardError

/-- `Pipeline.__init__(filenames, is_training, batch_size, load_size,
fine_size, shuffle)`: count the examples (asserting every shard is
non-empty and the total is positive) and store the configuration. -/
def mkPipeline (filenames : List (List RawRecord)) (is_training : Bool)
    (batch_size load_size fine_size : Nat) (shuffle : Bool) :
    Except PipelineError Pipeline := do
  let n ← countShards filenames
  if 0 < n then
    .ok { is_training := is_training, load_size := load_size,
          fine_size := fine_size, batch_size := batch_size,
          num_examples := n, num_shards := filenames.length,
          shuffle := shuffle, files := filenames }
  else .error .emptySourceError

/-- Construct a pipeline and run one epoch. -/
def constructAndRun (filenames : List (List RawRecord)) (is_training : Bool)
    (batch_size load_size fine_size : Nat) (shuffle : Bool)
    (rng : List Nat) : Except PipelineError (List Batch) := do
  let p ← mkPipeline filenames is_training batch_size load_size fine_size shuffle
  runPipeline p rng

/-- The shape predicate for an emitted image: an `s × s × 3` grid. -/
def imageShape (img : Image) (s : Nat) : Prop :=
  img.length = s ∧ ∀ row ∈ img, row.length = s ∧ ∀ px ∈ row, px.length = 3

/-- Every pixel value of the image lies in `[-1, 1]`. -/
def imageInRange (img : Image) : Prop :=
  ∀ row ∈ img, ∀ px ∈ row, ∀ v ∈ px, -1 ≤ v ∧ v ≤ 1

instance (img : Image) (s : Nat) : Decidable (imageShape img s) := by
  unfold imageShape; infer_instance

instance (img : Image) : Decidable (imageInRange img) := by
  unfold imageInRange; infer_instance

/-! ### Demonstration inputs used by the witnesses -/

/-- A minimal record: a 1×1 image and no boxes. -/
def demoRecord (name : String) : RawRecord :=
  { filename := name, img_shape := [1, 1, 3], image := [[[0, 0, 0]]],
    ymin := [], xmin := [], ymax := [], xmax := [] }

/-- A record with two boxes, some stored coordinates out of range. -/
def demoBoxRecord : RawRecord :=
  { filename := "b", img_shape := [1, 1, 3], image := [[[0, 0, 0]]],
    ymin := [0, 0], xmin := [0, 1], ymax := [1, 3], xmax := [1, 2] }

/-- A record whose `ymin` has length 2 but `xmin` has length 3. -/
def badRecord : RawRecord :=
  { filename := "bad", img_shape := [1, 1, 3], image := [[[0, 0, 0]]],
    ymin := [0, 0], xmin := [0, 0, 0], ymax := [0, 0], xmax := [0, 0] }

/-- The pipeline built from one shard holding `demoRecord "a"`. -/
def demoPipeline : Pipeline :=
  { is_training := false, load_size := 286, fine_size := 1, batch_size := 1,
    num_examples := 1, num_shards := 1, shuffle := false,
    files := [[demoRecord "a"]] }

/-- A pipeline whose single shard contains a malformed record. -/
def badPipeline : Pipeline :=
  { is_training := false, load_size := 286, fine_size := 1, batch_size := 1,
    num_examples := 2, num_shards := 1, shuffle := false,
    files := [[demoRecord "a", badRecord]] }

/-- What the pipeline makes of `demoRecord "a"` at `fine_size = 1`. -/
def demoExample : ParsedExample :=
  { image := mapImage (fun x => clip01 x * 2 - 1) (resizeImages [[[0, 0, 0]]] 1),
    img_shape := [1, 1, 3], boxes := [], num_boxes := 0, filename := "a" }

/-- What the pipeline makes of `demoBoxRecord` at `fine_size = 1`. -/
def demoBoxExample : ParsedExample :=
  { image := mapImage (fun x => clip01 x * 2 - 1) (resizeImages [[[0, 0, 0]]] 1),
    img_shape := [1, 1, 3], boxes := decodeBoxes demoBoxRecord,
    num_boxes := (decodeBoxes demoBoxRecord).length, filename := "b" }

/-- The single batch emitted by `demoPipeline`. -/
def demoBatch1 : Batch := assembleBatch [demoExample]

/-- A pipeline pairing a no-box record with a two-box record. -/
def demoPipeline2 : Pipeline :=
  { is_training := false, load_size := 286, fine_size := 1, batch_size := 2,
    num_examples := 2, num_shards := 1, shuffle := false,
    files := [[demoRecord "a", demoBoxRecord]] }

/-- The single batch emitted by `demoPipeline2`. -/
def demoBatch2 : Batch := assembleBatch [demoExample, demoBoxExample]

/-- Three shards holding 5, 3 and 4 copies of the minimal record. -/
def twelveShards : List (List RawRecord) :=
  [List.replicate 5 (demoRecord "a"), List.replicate 3 (demoRecord "a"),
    List.replicate 4 (demoRecord "a")]

/-- The pipeline over `twelveShards` with `batch_size = 4`. -/
def p12b4 : Pipeline :=
  { is_training := false, load_size := 286, fine_size := 1, batch_size := 4,
    num_examples := 12, num_shards := 3, shuffle := false,
    files := twelveShards }

/-- The pipeline over `twelveShards` with `batch_size = 5`. -/
def p12b5 : Pipeline :=
  { is_training := false, load_size := 286, fine_size := 1, batch_size := 5,
    num_examples := 12, num_shards := 3, shuffle := false,
    files := twelveShards }

/-- The decoded stream of `twelveShards`. -/
def demoEs12 : List ParsedExample := List.replicate 12 demoExample

/-- A two-shard pipeline with shuffling enabled. -/
def shufPipeline : Pipeline :=
  { is_training := false, load_size := 286, fine_size := 1, batch_size := 1,
    num_examples := 3, num_shards := 2, shuffle := true,
    files := [[demoRecord "a"], [demoRecord "b", demoRecord "c"]] }

/-- A training-mode pipeline over the minimal record. -/
def trainPipeline : Pipeline :=
  { is_training := true, load_size := 286, fine_size := 1, batch_size := 1,
    num_examples := 1, num_shards := 1, shuffle := false,
    files := [[demoRecord "a"]] }

/-! ### Basic lemmas about the pixel transforms -/

lemma clip01_nonneg (x : ℚ) : 0 ≤ clip01 x := by
  unfold clip01
  split_ifs with h1 h2
  · exact le_refl 0
  · exact zero_le_one
  · linarith

lemma clip01_le_one (x : ℚ) : clip01 x ≤ 1 := by
  unfold clip01
  split_ifs with h1 h2
  · exact zero_le_one
  · exact le_refl 1
  · linarith

lemma rescale_mem_Icc (x : ℚ) : -1 ≤ clip01 x * 2 - 1 ∧ clip01 x * 2 - 1 ≤ 1 := by
  constructor
  · have h := clip01_nonneg x; linarith
  · have h := clip01_le_one x; linarith

lemma imageShape_resizeImages (img : Image) (s : Nat) :
    imageShape (resizeImages img s) s := by
  refine ⟨by simp [resizeImages], ?_⟩
  intro row hrow
  simp only [resizeImages, List.mem_map, List.mem_range] at hrow
  obtain ⟨i, _, hi⟩ := hrow
  subst hi
  refine ⟨by simp, ?_⟩
  intro px hpx
  simp only [List.mem_map, List.mem_range] at hpx
  obtain ⟨j, _, hj⟩ := hpx
  subst hj
  rfl

lemma imageShape_mapImage (f : ℚ → ℚ) (img : Image) (s : Nat)
    (h : imageShape img s) : imageShape (mapImage f img) s := by
  obtain ⟨hlen, hrow⟩ := h
  refine ⟨by simpa [mapImage] using hlen, ?_⟩
  intro row hmem
  simp only [mapImage, List.mem_map] at hmem
  obtain ⟨row0, hrow0, hrow0eq⟩ := hmem
  subst hrow0eq
  obtain ⟨hrl, hpx⟩ := hrow row0 hrow0
  refine ⟨by simpa using hrl, ?_⟩
  intro px hpxmem
  simp only [List.mem_map] at hpxmem
  obtain ⟨px0, hpx0, hpx0eq⟩ := hpxmem
  subst hpx0eq
  simpa using hpx px0 hpx0

lemma imageInRange_mapImage (f : ℚ → ℚ) (img : Image)
    (hf : ∀ x, -1 ≤ f x ∧ f x ≤ 1) : imageInRange (mapImage f img) := by
  intro row hrow px hpx v hv
  simp only [mapImage, List.mem_map] at hrow
  obtain ⟨row0, _, hroweq⟩ := hrow
  subst hroweq
  simp only [List.mem_map] at hpx
  obtain ⟨px0, _, hpxeq⟩ := hpx
  subst hpxeq
  simp only [List.mem_map] at hv
  obtain ⟨v0, _, hveq⟩ := hv
  subst hveq
  exact hf v0

/-! ### Lemmas about parsing one record -/

lemma parseAndPreprocess_ok_shape (p : Pipeline) (rng : List Nat)
    (r : RawRecord) (e : ParsedExample)
    (h : parseAndPreprocess p rng r = .ok e) :
    imageShape e.image p.fine_size ∧ imageInRange e.image ∧
      e.num_boxes = e.boxes.length := by
  unfold parseAndPreprocess at h
  split at h
  · exact absurd h (by simp)
  split at h
  · exact absurd h (by simp)
  simp only [Except.ok.injEq] at h
  subst h
  refine ⟨?_, ?_, rfl⟩
  · apply imageShape_mapImage
    split
    · exact imageShape_resizeImages _ _
    · exact imageShape_resizeImages _ _
  · exact imageInRange_mapImage _ _ rescale_mem_Icc

lemma parseAndPreprocess_eval_rng (p : Pipeline) (rng1 rng2 : List Nat)
    (r : RawRecord) (h : p.is_training = false) :
    parseAndPreprocess p rng1 r = parseAndPreprocess p rng2 r := by
  unfold parseAndPreprocess
  simp [h]

lemma parseAndPreprocess_error_of_mismatch (p : Pipeline) (rng : List Nat)
    (r : RawRecord) (h : boxLengthsMatch r = false) :
    parseAndPreprocess p rng r = .error .malformedRecordError := by
  unfold parseAndPreprocess
  split
  · rfl
  · rw [if_pos (by simp [h])]

/-! ### Lemmas about decoding the whole stream -/

lemma decodeAll_length (p : Pipeline) (rng : List Nat) (l : List RawRecord)
    (es : List ParsedExample) (h : decodeAll p rng l = .ok es) :
    es.length = l.length := by
  induction l generalizing rng es with
  | nil => simp only [decodeAll, Except.ok.injEq] at h; subst h; rfl
  | cons r rs ih =>
      simp only [decodeAll, bind, Except.bind] at h
      cases hp : parseAndPreprocess p rng r with
      | error e => rw [hp] at h; exact absurd h (by simp)
      | ok e =>
          rw [hp] at h
          cases hd : decodeAll p rng.tail rs with
          | error e2 => rw [hd] at h; exact absurd h (by simp)
          | ok es2 =>
              rw [hd] at h
              simp only [pure, Except.pure, Except.ok.injEq] at h
              subst h
              simp [ih rng.tail es2 hd]

lemma decodeAll_mem (p : Pipeline) (rng : List Nat) (l : List RawRecord)
    (es : List ParsedExample) (h : decodeAll p rng l = .ok es)
    (e : ParsedExample) (he : e ∈ es) :
    ∃ rng2 r, r ∈ l ∧ parseAndPreprocess p rng2 r = .ok e := by
  induction l generalizing rng es with
  | nil =>
      simp only [decodeAll, Except.ok.injEq] at h
      subst h
      exact absurd he (by simp)
  | cons r rs ih =>
      simp only [decodeAll, bind, Except.bind] at h
      cases hp : parseAndPreprocess p rng r with
      | error err => rw [hp] at h; exact absurd h (by simp)
      | ok e1 =>
          rw [hp] at h
          cases hd : decodeAll p rng.tail rs with
          | error err => rw [hd] at h; exact absurd h (by simp)
          | ok es2 =>
              rw [hd] at h
              simp only [pure, Except.pure, Except.ok.injEq] at h
              subst h
              rcases List.mem_cons.mp he with he1 | he2
              · subst he1; exact ⟨rng, r, List.mem_cons_self r rs, hp⟩
              · obtain ⟨rng2, r2, hr2, hp2⟩ := ih rng.tail es2 hd he2
                exact ⟨rng2, r2, List.mem_cons_of_mem r hr2, hp2⟩

lemma decodeAll_ok_of_mem (p : Pipeline) (rng : List Nat)
    (l : List RawRecord) (es : List ParsedExample)
    (h : decodeAll p rng l = .ok es) (r : RawRecord) (hr : r ∈ l) :
    ∃ rng2 e, parseAndPreprocess p rng2 r = .ok e := by
  induction l generalizing rng es with
  | nil => exact absurd hr (by simp)
  | cons r1 rs ih =>
      simp only [decodeAll, bind, Except.bind] at h
      cases hp : parseAndPreprocess p rng r1 with
      | error err => rw [hp] at h; exact absurd h (by simp)
      | ok e1 =>
          rw [hp] at h
          cases hd : decodeAll p rng.tail rs with
          | error err => rw [hd] at h; exact absurd h (by simp)
          | ok es2 =>
              rcases List.mem_cons.mp hr with hr1 | hr2
              · subst hr1; exact ⟨rng, e1, hp⟩
              · exact ih rng.tail es2 hd hr2

lemma decodeAll_eval_rng (p : Pipeline) (rng1 rng2 : List Nat)
    (l : List RawRecord) (h : p.is_training = false) :
    decodeAll p rng1 l = decodeAll p rng2 l := by
  induction l generalizing rng1 rng2 with
  | nil => rfl
  | cons r rs ih =>
      simp only [decodeAll]
      rw [parseAndPreprocess_eval_rng p rng1 rng2 r h, ih rng1.tail rng2.tail]

/-! ### Lemmas about batching -/

lemma chunkExact_length (b : Nat) (l : List α) :
    (chunkExact b l).length = l.length / b := by
  simp [chunkExact]

lemma chunkExact_mem_length (b : Nat) (l : List α) (c : List α)
    (hc : c ∈ chunkExact b l) : c.length = b := by
  simp only [chunkExact, List.mem_map, List.mem_range] at hc
  obtain ⟨i, hi, hceq⟩ := hc
  subst hceq
  have hib : (i + 1) * b ≤ l.length := by
    calc (i + 1) * b ≤ l.length / b * b :=
          Nat.mul_le_mul_right b (Nat.succ_le_of_lt hi)
      _ ≤ l.length := Nat.div_mul_le_self l.length b
  have : i * b + b ≤ l.length := by
    have := hib; rw [Nat.succ_mul] at this; exact this
  simp only [List.length_take, List.length_drop]
  omega

lemma chunkExact_flatten (b : Nat) (l : List α) :
    (chunkExact b l).flatten = l.take (l.length / b * b) := by
  unfold chunkExact
  generalize l.length / b = k
  induction k with
  | zero => simp
  | succ k ih =>
      rw [List.range_succ, List.map_append, List.flatten_append, ih]
      simp only [List.map_cons, List.map_nil, List.flatten_cons,
        List.flatten_nil, List.append_nil]
      rw [Nat.succ_mul, List.take_add]

lemma maxNumBoxes_ge (g : List ParsedExample) (e : ParsedExample)
    (he : e ∈ g) : e.num_boxes ≤ maxNumBoxes g := by
  unfold maxNumBoxes
  induction g with
  | nil => exact absurd he (by simp)
  | cons e1 g1 ih =>
      rcases List.mem_cons.mp he with h1 | h2
      · subst h1; exact le_max_left _ _
      · exact le_trans (ih h2) (le_max_right _ _)

lemma padBoxesTo_length (n : Nat) (rows : List Box) (h : rows.length ≤ n) :
    (padBoxesTo n rows).length = n := by
  simp only [padBoxesTo, List.length_append, List.length_replicate]
  omega

lemma replicate_getD_zeroBox (n j : Nat) :
    (List.replicate n zeroBox).getD j zeroBox = zeroBox := by
  induction n generalizing j with
  | zero => simp
  | succ n ih =>
      cases j with
      | zero => rfl
      | succ j => simp [List.replicate_succ, ih j]

lemma padBoxesTo_getD_pad (n : Nat) (rows : List Box) (j : Nat)
    (hj : rows.length ≤ j) :
    (padBoxesTo n rows).getD j zeroBox = zeroBox := by
  unfold padBoxesTo
  rw [List.getD_append_right rows _ zeroBox j hj]
  exact replicate_getD_zeroBox _ _

/-! ### Lemmas about the buffered shuffle -/

lemma shuffleAux_perm [DecidableEq α] (fuel : Nat) (rng : List Nat)
    (buf rest : List α) : (shuffleAux fuel rng buf rest).Perm (buf ++ rest) := by
  induction fuel generalizing rng buf rest with
  | zero => exact List.Perm.refl _
  | succ fuel ih =>
      cases buf with
      | nil => simp [shuffleAux]
      | cons b bs =>
          simp only [shuffleAux]
          have hx : (b :: bs).getD (rng.headD 0 % (b :: bs).length) b ∈ b :: bs := by
            rcases Nat.lt_or_ge (rng.headD 0 % (b :: bs).length) (b :: bs).length
              with h | h
            · rw [List.getD_eq_getElem _ _ h]
              exact List.getElem_mem h
            · rw [List.getD_eq_default _ _ h]
              exact List.mem_cons_self b bs
          refine List.Perm.trans (List.Perm.cons _ (ih rng.tail _ _)) ?_
          have hmid : ((b :: bs).erase
                ((b :: bs).getD (rng.headD 0 % (b :: bs).length) b)
                  ++ rest.take 1 ++ rest.drop 1) =
              ((b :: bs).erase
                ((b :: bs).getD (rng.headD 0 % (b :: bs).length) b) ++ rest) := by
            rw [List.append_assoc, List.take_append_drop]
          rw [hmid]
          have hperm := List.perm_cons_erase hx
          have htail := List.Perm.append_right rest hperm.symm
          exact List.Perm.trans (List.Perm.refl _) (by
            simpa using htail)

lemma bufferedShuffle_perm [DecidableEq α] (k : Nat) (rng : List Nat)
    (l : List α) : (bufferedShuffle k rng l).Perm l := by
  unfold bufferedShuffle
  refine List.Perm.trans (shuffleAux_perm _ _ _ _) ?_
  rw [List.take_append_drop]

lemma shardOrder_perm (p : Pipeline) (rng : List Nat) :
    (shardOrder p rng).Perm p.files := by
  unfold shardOrder
  split
  · exact bufferedShuffle_perm _ _ _
  · exact List.Perm.refl _

lemma recordStream_length (p : Pipeline) (rng : List Nat) :
    (recordStream p rng).length = (p.files.map List.length).sum := by
  unfold recordStream
  rw [List.length_flatten]
  exact ((shardOrder_perm p rng).map List.length).sum_eq

/-! ### Lemmas about the whole run and the constructor -/

lemma runPipeline_ok_elim (p : Pipeline) (rng : List Nat)
    (batches : List Batch) (h : runPipeline p rng = .ok batches) :
    ∃ es, decodeAll p rng (recordStream p rng) = .ok es ∧
      batches = paddedBatchAll p.batch_size es := by
  unfold runPipeline at h
  simp only [bind, Except.bind] at h
  cases hd : decodeAll p rng (recordStream p rng) with
  | error err => rw [hd] at h; exact absurd h (by simp)
  | ok es =>
      rw [hd] at h
      simp only [pure, Except.pure, Except.ok.injEq] at h
      exact ⟨es, rfl, h.symm⟩

lemma chunkExact_mem_subset (b : Nat) (l : List α) (c : List α)
    (hc : c ∈ chunkExact b l) (x : α) (hx : x ∈ c) : x ∈ l := by
  simp only [chunkExact, List.mem_map, List.mem_range] at hc
  obtain ⟨i, _, hceq⟩ := hc
  subst hceq
  exact List.mem_of_mem_drop (List.mem_of_mem_take hx)

lemma paddedBatchAll_mem (b : Nat) (es : List ParsedExample) (bt : Batch)
    (hbt : bt ∈ paddedBatchAll b es) :
    ∃ g, g ∈ chunkExact b es ∧ bt = assembleBatch g := by
  simp only [paddedBatchAll, List.mem_map] at hbt
  obtain ⟨g, hg, hgeq⟩ := hbt
  exact ⟨g, hg, hgeq.symm⟩

lemma zipBoxes_mem_length (a : List ℚ) : ∀ (b c d : List ℚ) (row : Box),
    row ∈ zipBoxes a b c d → row.length = 4 := by
  induction a with
  | nil => intro b c d row h; cases b <;> cases c <;> cases d <;>
      simp [zipBoxes] at h
  | cons y ys ih =>
      intro b c d row h
      cases b with
      | nil => cases c <;> cases d <;> simp [zipBoxes] at h
      | cons x xs =>
          cases c with
          | nil => cases d <;> simp [zipBoxes] at h
          | cons y1 ys1 =>
              cases d with
              | nil => simp [zipBoxes] at h
              | cons x1 xs1 =>
                  simp only [zipBoxes, List.mem_cons] at h
                  rcases h with h | h
                  · subst h; rfl
                  · exact ih xs ys1 xs1 row h

lemma decodeBoxes_mem (r : RawRecord) (box : Box)
    (hbox : box ∈ decodeBoxes r) :
    box.length = 4 ∧ ∀ c ∈ box, 0 ≤ c ∧ c ≤ 1 := by
  simp only [decodeBoxes, List.mem_map] at hbox
  obtain ⟨b0, hb0, hbeq⟩ := hbox
  subst hbeq
  constructor
  · simpa using zipBoxes_mem_length r.ymin r.xmin r.ymax r.xmax b0 hb0
  · intro c hc
    simp only [List.mem_map] at hc
    obtain ⟨u, _, hueq⟩ := hc
    subst hueq
    exact ⟨clip01_nonneg u, clip01_le_one u⟩

lemma parseAndPreprocess_ok_rows (p : Pipeline) (rng : List Nat)
    (r : RawRecord) (e : ParsedExample)
    (h : parseAndPreprocess p rng r = .ok e) :
    ∀ row ∈ e.boxes, row.length = 4 := by
  unfold parseAndPreprocess at h
  split at h
  · exact absurd h (by simp)
  split at h
  · exact absurd h (by simp)
  simp only [Except.ok.injEq] at h
  subst h
  intro row hrow
  simp only at hrow
  split at hrow
  · simp only [randomImageCrop] at hrow
    split at hrow
    · exact (decodeBoxes_mem r row hrow).1
    · split at hrow
      · simp only [List.mem_map] at hrow
        obtain ⟨b0, hb0, hbeq⟩ := hrow
        subst hbeq
        simpa using (decodeBoxes_mem r b0 hb0).1
      · exact (decodeBoxes_mem r row hrow).1
  · exact (decodeBoxes_mem r row hrow).1

lemma countShards_ok_sum (files : List (List RawRecord)) (n : Nat)
    (h : countShards files = .ok n) : n = (files.map List.length).sum := by
  induction files generalizing n with
  | nil => simp only [countShards, Except.ok.injEq] at h; simp [h.symm]
  | cons f fs ih =>
      simp only [countShards, bind, Except.bind] at h
      split at h
      · cases hc : countShards fs with
        | error err => rw [hc] at h; exact absurd h (by simp)
        | ok m =>
            rw [hc] at h
            simp only [Except.ok.injEq] at h
            simp [h.symm, ih m hc]
      · exact absurd h (by simp)

lemma countShards_error_of_empty (files : List (List RawRecord))
    (shard : List RawRecord) (hmem : shard ∈ files) (hempty : shard = []) :
    countShards files = .error .emptyShardError := by
  subst hempty
  induction files with
  | nil => exact absurd hmem (by simp)
  | cons f fs ih =>
      rcases List.mem_cons.mp hmem with h1 | h2
      · subst h1; rfl
      · simp only [countShards, bind, Except.bind]
        split
        · rw [ih h2]
        · rfl

lemma mkPipeline_ok_fields (filenames : List (List RawRecord)) (t : Bool)
    (b l f : Nat) (s : Bool) (p : Pipeline)
    (h : mkPipeline filenames t b l f s = .ok p) :
    p.files = filenames ∧ p.num_examples = (filenames.map List.length).sum ∧
      0 < p.num_examples ∧ p.batch_size = b ∧ p.fine_size = f ∧
      p.load_size = l ∧ p.is_training = t ∧ p.shuffle = s ∧
      p.num_shards = filenames.length := by
  unfold mkPipeline at h
  simp only [bind, Except.bind] at h
  cases hc : countShards filenames with
  | error err => rw [hc] at h; exact absurd h (by simp)
  | ok n =>
      rw [hc] at h
      dsimp only [] at h
      split at h
      · simp only [Except.ok.injEq] at h
        subst h
        refine ⟨rfl, countShards_ok_sum filenames n hc, ?_, rfl, rfl, rfl,
          rfl, rfl, rfl⟩
        simpa [countShards_ok_sum filenames n hc] using
          (by assumption : 0 < n)
      · exact absurd h (by simp)

lemma parseAndPreprocess_load_irrel (p : Pipeline) (x : Nat)
    (rng : List Nat) (r : RawRecord) :
    parseAndPreprocess { p with load_size := x } rng r =
      parseAndPreprocess p rng r := rfl

lemma decodeAll_load_irrel (p : Pipeline) (x : Nat) (rng : List Nat)
    (l : List RawRecord) :
    decodeAll { p with load_size := x } rng l = decodeAll p rng l := by
  induction l generalizing rng with
  | nil => rfl
  | cons r rs ih =>
      simp only [decodeAll]
      rw [parseAndPreprocess_load_irrel p x rng r, ih rng.tail]

lemma runPipeline_load_irrel (p : Pipeline) (x : Nat) (rng : List Nat) :
    runPipeline { p with load_size := x } rng = runPipeline p rng := by
  unfold runPipeline
  rw [decodeAll_load_irrel]
  rfl

/-! ### The claims -/

/-- C1: for every constructed `Pipeline` the stored `num_examples` equals
the sum of the per-file record counts and is strictly positive, and
construction fails with `EmptyShardError` whenever any single input file
contains zero records. -/
theorem c1_count_and_empty_shard (filenames : List (List RawRecord))
    (t : Bool) (b l f : Nat) (s : Bool) :
    (∀ p : Pipeline, mkPipeline filenames t b l f s = .ok p →
        p.num_examples = (filenames.map List.length).sum ∧
          0 < p.num_examples) ∧
      ∀ shard ∈ filenames, shard = [] →
        mkPipeline filenames t b l f s = .error .emptyShardError := by
  constructor
  · intro p hp
    obtain ⟨-, h2, h3, -⟩ := mkPipeline_ok_fields filenames t b l f s p hp
    exact ⟨h2, h3⟩
  · intro shard hmem hempty
    unfold mkPipeline
    simp only [bind, Except.bind]
    rw [countShards_error_of_empty filenames shard hmem hempty]

theorem c1_count_and_empty_shard_witness :
    (demoPipeline.num_examples = ([[demoRecord "a"]].map List.length).sum ∧
        0 < demoPipeline.num_examples) ∧
      mkPipeline [[demoRecord "a"], []] false 1 286 1 false =
        .error .emptyShardError := by
  refine ⟨(c1_count_and_empty_shard [[demoRecord "a"]] false 1 286 1 false).1
      demoPipeline (by rfl), ?_⟩
  exact (c1_count_and_empty_shard [[demoRecord "a"], []] false 1 286 1
      false).2 [] (by decide) rfl

/-- C5: every coordinate of every decoded box lies in `[0, 1]` whatever
the stored values were, because the decoder zips the four coordinate
sequences column-wise into rows of four and clips every value. -/
theorem c5_decoded_boxes_normalized (r : RawRecord) (box : Box)
    (hbox : box ∈ decodeBoxes r) :
    box.length = 4 ∧ ∀ c ∈ box, 0 ≤ c ∧ c ≤ 1 :=
  decodeBoxes_mem r box hbox

/-- C4: every epoch emits exactly `num_examples / batch_size` batches of
exactly `batch_size` examples each; the trailing `num_examples mod
batch_size` examples are dropped: only the first
`(num_examples / batch_size) * batch_size` decoded examples appear in
the emitted batches. -/
theorem c4_full_batches_drop_remainder (filenames : List (List RawRecord))
    (t : Bool) (b l f : Nat) (s : Bool) (p : Pipeline)
    (hp : mkPipeline filenames t b l f s = .ok p) (rng : List Nat)
    (batches : List Batch) (hrun : runPipeline p rng = .ok batches) :
    batches.length = p.num_examples / p.batch_size ∧
      (∀ bt ∈ batches, bt.filenames.length = p.batch_size) ∧
      p.batch_size * batches.length + p.num_examples % p.batch_size =
        p.num_examples ∧
      ∃ es, decodeAll p rng (recordStream p rng) = .ok es ∧
        es.length = p.num_examples ∧
        (batches.map Batch.filenames).flatten =
          (es.map (fun e => e.filename)).take
            (p.num_examples / p.batch_size * p.batch_size) := by
  obtain ⟨es, hd, hb⟩ := runPipeline_ok_elim p rng batches hrun
  obtain ⟨hfiles, hnum, -, -⟩ := mkPipeline_ok_fields filenames t b l f s p hp
  have hes : es.length = p.num_examples := by
    rw [decodeAll_length p rng _ es hd, recordStream_length, hfiles, hnum]
  subst hb
  have hlen : (paddedBatchAll p.batch_size es).length =
      p.num_examples / p.batch_size := by
    rw [paddedBatchAll, List.length_map, chunkExact_length, hes]
  refine ⟨hlen, ?_, ?_, es, hd, hes, ?_⟩
  · intro bt hbt
    obtain ⟨g, hg, hbt2⟩ := paddedBatchAll_mem p.batch_size es bt hbt
    subst hbt2
    simp only [assembleBatch, List.length_map]
    exact chunkExact_mem_length p.batch_size es g hg
  · rw [hlen]
    exact Nat.div_add_mod p.num_examples p.batch_size
  · have hcomp : (paddedBatchAll p.batch_size es).map Batch.filenames =
        (chunkExact p.batch_size es).map
          (List.map (fun e => e.filename)) := by
      simp [paddedBatchAll, assembleBatch, Function.comp]
    rw [hcomp, ← List.map_flatten, chunkExact_flatten, List.map_take, hes]

theorem c4_full_batches_drop_remainder_witness :
    (paddedBatchAll 4 demoEs12).length = 3 ∧
      (paddedBatchAll 5 demoEs12).length = 2 := by
  have h4 := (c4_full_batches_drop_remainder twelveShards false 4 286 1 false
      p12b4 rfl [] (paddedBatchAll 4 demoEs12) rfl).1
  have h5 := (c4_full_batches_drop_remainder twelveShards false 5 286 1 false
      p12b5 rfl [] (paddedBatchAll 5 demoEs12) rfl).1
  exact ⟨h4.trans rfl, h5.trans rfl⟩

/-- C8: when `shuffle` is set the pipeline permutes only the order of the
shard files, using a shuffle buffer sized exactly `num_shards`, before
flattening: the record stream is the concatenation of a permutation of
the shard files, each shard kept intact, so within-shard record order is
never changed. -/
theorem c8_shard_level_shuffle (p : Pipeline) (rng : List Nat)
    (h : p.shuffle = true) :
    recordStream p rng = (bufferedShuffle p.num_shards rng p.files).flatten ∧
      (bufferedShuffle p.num_shards rng p.files).Perm p.files ∧
      ∀ shard ∈ bufferedShuffle p.num_shards rng p.files,
        shard ∈ p.files := by
  refine ⟨?_, bufferedShuffle_perm _ _ _, ?_⟩
  · simp [recordStream, shardOrder, h]
  · intro shard hs
    exact (bufferedShuffle_perm p.num_shards rng p.files).mem_iff.mp hs

theorem c8_shard_level_shuffle_witness :
    recordStream shufPipeline [1] =
        (bufferedShuffle shufPipeline.num_shards [1]
          shufPipeline.files).flatten ∧
      (bufferedShuffle shufPipeline.num_shards [1]
          shufPipeline.files).Perm shufPipeline.files ∧
      ∀ shard ∈ bufferedShuffle shufPipeline.num_shards [1]
          shufPipeline.files, shard ∈ shufPipeline.files :=
  c8_shard_level_shuffle shufPipeline [1] rfl

/-- C9: in training mode an example whose decoded box matrix is empty
passes the random crop unchanged (the parse result equals that of the
no-crop evaluation path), decoding succeeds with `num_boxes = 0`, and
padded batch assembly of any group containing such an example succeeds,
giving it an all-zero padding block. -/
theorem c9_empty_boxes_no_crop (p : Pipeline) (rng : List Nat)
    (r : RawRecord) (hy : r.ymin = []) (hx : r.xmin = [])
    (hy2 : r.ymax = []) (hx2 : r.xmax = [])
    (himg : r.img_shape.length = 3) (htrain : p.is_training = true) :
    randomImageCrop rng r.image (decodeBoxes r) = (r.image, decodeBoxes r) ∧
      parseAndPreprocess p rng r =
        parseAndPreprocess { p with is_training := false } rng r ∧
      (∃ e, parseAndPreprocess p rng r = .ok e ∧ e.num_boxes = 0 ∧
        e.boxes = []) ∧
      ∀ g : List ParsedExample, ∀ e ∈ g, e.boxes = [] →
        padBoxesTo (maxNumBoxes g) e.boxes =
            List.replicate (maxNumBoxes g) zeroBox ∧
          List.replicate (maxNumBoxes g) zeroBox ∈ (assembleBatch g).boxes := by
  have hboxes : decodeBoxes r = [] := by
    rw [decodeBoxes, hy]
    rfl
  refine ⟨by simp [randomImageCrop, hboxes], ?_, ?_, ?_⟩
  · simp [parseAndPreprocess, htrain, randomImageCrop, hboxes, himg,
      boxLengthsMatch, hy, hx, hy2, hx2]
  · refine ⟨⟨mapImage (fun x => clip01 x * 2 - 1)
        (resizeImages r.image p.fine_size), r.img_shape, [], 0, r.filename⟩,
      ?_, rfl, rfl⟩
    simp [parseAndPreprocess, htrain, randomImageCrop, hboxes, himg,
      boxLengthsMatch, hy, hx, hy2, hx2]
  · intro g e he hbe
    have hpad : padBoxesTo (maxNumBoxes g) e.boxes =
        List.replicate (maxNumBoxes g) zeroBox := by
      simp [padBoxesTo, hbe]
    refine ⟨hpad, ?_⟩
    simp only [assembleBatch, List.mem_map]
    exact ⟨e, he, hpad⟩

theorem c9_empty_boxes_no_crop_witness :
    randomImageCrop [0] (demoRecord "a").image
        (decodeBoxes (demoRecord "a")) =
      ((demoRecord "a").image, decodeBoxes (demoRecord "a")) ∧
      parseAndPreprocess trainPipeline [0] (demoRecord "a") =
        parseAndPreprocess { trainPipeline with is_training := false } [0]
          (demoRecord "a") ∧
      (∃ e, parseAndPreprocess trainPipeline [0] (demoRecord "a") = .ok e ∧
        e.num_boxes = 0 ∧ e.boxes = []) ∧
      ∀ g : List ParsedExample, ∀ e ∈ g, e.boxes = [] →
        padBoxesTo (maxNumBoxes g) e.boxes =
            List.replicate (maxNumBoxes g) zeroBox ∧
          List.replicate (maxNumBoxes g) zeroBox ∈ (assembleBatch g).boxes :=
  c9_empty_boxes_no_crop trainPipeline [0] (demoRecord "a") rfl rfl rfl rfl
    rfl rfl

theorem c5_decoded_boxes_normalized_witness :
    ([0, 1, 1, 1] : Box).length = 4 ∧
      ∀ c ∈ ([0, 1, 1, 1] : Box), 0 ≤ c ∧ c ≤ 1 :=
  c5_decoded_boxes_normalized demoBoxRecord [0, 1, 1, 1] (by decide)

/-- C6: with `is_training = false` and `shuffle = false` the run is a
function of the input files alone: two runs over the same fixed input
yield identical batch sequences whatever randomness is supplied. -/
theorem c6_eval_mode_deterministic (p : Pipeline)
    (h1 : p.is_training = false) (h2 : p.shuffle = false)
    (rng1 rng2 : List Nat) :
    runPipeline p rng1 = runPipeline p rng2 := by
  have hstream : ∀ rng : List Nat, recordStream p rng = p.files.flatten := by
    intro rng
    unfold recordStream shardOrder
    rw [if_neg (by simp [h2])]
  unfold runPipeline
  rw [hstream rng1, hstream rng2,
    decodeAll_eval_rng p rng1 rng2 p.files.flatten h1]

theorem c6_eval_mode_deterministic_witness :
    runPipeline demoPipeline [0] = runPipeline demoPipeline [1] :=
  c6_eval_mode_deterministic demoPipeline rfl rfl [0] [1]

/-- C7: a record whose four coordinate sequences do not all have equal
length makes decoding fail with `MalformedRecordError`, and a run over a
stream containing such a record never emits any batch: it aborts with an
error instead. -/
theorem c7_mismatched_lengths_abort (p : Pipeline) (rng : List Nat)
    (r : RawRecord) (hlen : boxLengthsMatch r = false)
    (hmem : r ∈ recordStream p rng) :
    (∀ rng2, parseAndPreprocess p rng2 r = .error .malformedRecordError) ∧
      ∀ batches : List Batch, runPipeline p rng ≠ .ok batches := by
  constructor
  · intro rng2
    exact parseAndPreprocess_error_of_mismatch p rng2 r hlen
  · intro batches hok
    obtain ⟨es, hd, -⟩ := runPipeline_ok_elim p rng batches hok
    obtain ⟨rng2, e, hpe⟩ := decodeAll_ok_of_mem p rng _ es hd r hmem
    rw [parseAndPreprocess_error_of_mismatch p rng2 r hlen] at hpe
    exact absurd hpe (by simp)

theorem c7_mismatched_lengths_abort_witness :
    (∀ rng2, parseAndPreprocess badPipeline rng2 badRecord =
        .error .malformedRecordError) ∧
      ∀ batches : List Batch, runPipeline badPipeline [] ≠ .ok batches :=
  c7_mismatched_lengths_abort badPipeline [] badRecord (by decide) (by decide)

/-- C10: the constructor takes a `load_size` argument (defaulting to 286)
that is only stored: two runs over the same inputs that differ only in
`load_size` produce identical results. -/
theorem c10_load_size_unused (filenames : List (List RawRecord)) (t : Bool)
    (b l1 l2 f : Nat) (s : Bool) (rng : List Nat) :
    constructAndRun filenames t b l1 f s rng =
        constructAndRun filenames t b l2 f s rng ∧
      ∀ p : Pipeline, mkPipeline filenames t b l1 f s = .ok p →
        p.load_size = l1 := by
  constructor
  · unfold constructAndRun mkPipeline
    simp only [bind, Except.bind]
    cases hc : countShards filenames with
    | error err => rfl
    | ok n =>
        dsimp only []
        by_cases hn : 0 < n
        · simp only [hn, if_true]
          exact runPipeline_load_irrel
            ⟨t, l2, f, b, n, filenames.length, s, filenames⟩ l1 rng
        · simp only [hn, if_false]
  · intro p hp
    exact (mkPipeline_ok_fields filenames t b l1 f s p hp).2.2.2.2.2.1

/-- C2: every emitted batch holds exactly `batch_size` images, each a
`fine_size × fine_size × 3` grid, and every pixel value lies in
`[-1, 1]`, in training and evaluation mode alike, because the clip to
`[0, 1]` and the affine remap `pixel * 2 - 1` run unconditionally after
any augmentation. -/
theorem c2_batch_image_shape_range (p : Pipeline) (rng : List Nat)
    (batches : List Batch) (hrun : runPipeline p rng = .ok batches)
    (bt : Batch) (hbt : bt ∈ batches) :
    bt.images.length = p.batch_size ∧
      ∀ img ∈ bt.images, imageShape img p.fine_size ∧ imageInRange img := by
  obtain ⟨es, hd, hb⟩ := runPipeline_ok_elim p rng batches hrun
  subst hb
  obtain ⟨g, hg, hbt2⟩ := paddedBatchAll_mem p.batch_size es bt hbt
  subst hbt2
  constructor
  · simp only [assembleBatch, List.length_map]
    exact chunkExact_mem_length p.batch_size es g hg
  · intro img himg
    simp only [assembleBatch, List.mem_map] at himg
    obtain ⟨e, he, heq⟩ := himg
    subst heq
    have hees : e ∈ es := chunkExact_mem_subset p.batch_size es g hg e he
    obtain ⟨rng2, r, -, hpr⟩ := decodeAll_mem p rng _ es hd e hees
    have hshape := parseAndPreprocess_ok_shape p rng2 r e hpr
    exact ⟨hshape.1, hshape.2.1⟩

theorem c2_batch_image_shape_range_witness :
    demoBatch1.images.length = demoPipeline.batch_size ∧
      ∀ img ∈ demoBatch1.images,
        imageShape img demoPipeline.fine_size ∧ imageInRange img :=
  c2_batch_image_shape_range demoPipeline [] [demoBatch1] rfl demoBatch1
    (List.mem_singleton.mpr rfl)

/-- C3: in every emitted batch the padded boxes tensor has one entry per
example, each entry has `Nmax` rows of four values where `Nmax` is the
batch's maximum `num_boxes`, rows from an example's own `num_boxes`
onward are the all-zero padding row, and the per-example `num_boxes`
counts ride along in the batch. -/
theorem c3_padded_boxes_zero_fill (p : Pipeline) (rng : List Nat)
    (batches : List Batch) (hrun : runPipeline p rng = .ok batches)
    (bt : Batch) (hbt : bt ∈ batches) :
    bt.boxes.length = bt.num_boxes.length ∧
      ∀ i, i < bt.boxes.length →
        (bt.boxes.getD i []).length = bt.num_boxes.foldr max 0 ∧
          (∀ row ∈ bt.boxes.getD i [], row.length = 4) ∧
          ∀ j, bt.num_boxes.getD i 0 ≤ j →
            (bt.boxes.getD i []).getD j zeroBox = zeroBox := by
  obtain ⟨es, hd, hb⟩ := runPipeline_ok_elim p rng batches hrun
  subst hb
  obtain ⟨g, hg, hbt2⟩ := paddedBatchAll_mem p.batch_size es bt hbt
  subst hbt2
  refine ⟨by simp [assembleBatch], ?_⟩
  intro i hi
  have hig : i < g.length := by
    simpa [assembleBatch] using hi
  have hmax : (assembleBatch g).num_boxes.foldr max 0 = maxNumBoxes g := rfl
  have hboxval : (assembleBatch g).boxes.getD i [] =
      padBoxesTo (maxNumBoxes g) (g.get ⟨i, hig⟩).boxes := by
    show (g.map (fun e => padBoxesTo (maxNumBoxes g) e.boxes)).getD i [] = _
    rw [List.getD_eq_getElem _ _ (by simpa using hig)]
    simp
  have hnbval : (assembleBatch g).num_boxes.getD i 0 =
      (g.get ⟨i, hig⟩).num_boxes := by
    show (g.map (fun e => e.num_boxes)).getD i 0 = _
    rw [List.getD_eq_getElem _ _ (by simpa using hig)]
    simp
  have hmem : g.get ⟨i, hig⟩ ∈ g := List.get_mem g i hig
  have hees : g.get ⟨i, hig⟩ ∈ es :=
    chunkExact_mem_subset p.batch_size es g hg _ hmem
  obtain ⟨rng2, r, -, hpr⟩ := decodeAll_mem p rng _ es hd _ hees
  have hnb : (g.get ⟨i, hig⟩).num_boxes = (g.get ⟨i, hig⟩).boxes.length :=
    (parseAndPreprocess_ok_shape p rng2 r _ hpr).2.2
  have hle : (g.get ⟨i, hig⟩).boxes.length ≤ maxNumBoxes g := by
    rw [← hnb]
    exact maxNumBoxes_ge g _ hmem
  refine ⟨?_, ?_, ?_⟩
  · rw [hboxval, hmax]
    exact padBoxesTo_length _ _ hle
  · intro row hrow
    rw [hboxval] at hrow
    unfold padBoxesTo at hrow
    rcases List.mem_append.mp hrow with hleft | hright
    · exact parseAndPreprocess_ok_rows p rng2 r _ hpr row hleft
    · rw [(List.eq_of_mem_replicate hright : row = zeroBox)]
      rfl
  · intro j hj
    rw [hboxval]
    apply padBoxesTo_getD_pad
    rw [← hnb]
    rw [hnbval] at hj
    exact hj

theorem c3_padded_boxes_zero_fill_witness :
    demoBatch2.boxes.length = demoBatch2.num_boxes.length ∧
      ∀ i, i < demoBatch2.boxes.length →
        (demoBatch2.boxes.getD i []).length =
            demoBatch2.num_boxes.foldr max 0 ∧
          (∀ row ∈ demoBatch2.boxes.getD i [], row.length = 4) ∧
          ∀ j, demoBatch2.num_boxes.getD i 0 ≤ j →
            (demoBatch2.boxes.getD i []).getD j zeroBox = zeroBox :=
  c3_padded_boxes_zero_fill demoPipeline2 [] [demoBatch2] rfl demoBatch2
    (List.mem_singleton.mpr rfl)

theorem c10_load_size_unused_witness :
    (constructAndRun [[demoRecord "a"]] false 1 286 1 false [] =
        constructAndRun [[demoRecord "a"]] false 1 999 1 false []) ∧
      demoPipeline.load_size = 286 := by
  refine ⟨(c10_load_size_unused [[demoRecord "a"]] false 1 286 999 1
      false []).1, ?_⟩
  exact (c10_load_size_unused [[demoRecord "a"]] false 1 286 999 1
      false []).2 demoPipeline (by rfl)

end DetectionInput
